import Mathlib

/-!
Verification of the VectHare backend layer against its specification.

JavaScript strings are modeled as lists of characters (`JStr`), JS numbers
that carry relevance scores and thresholds as rationals, fallible operations
as `Except`, and absent/`undefined` values as `Option`.  Each backend method
is embedded as a pure function of its arguments plus an explicit transport
function standing for the HTTP round trip: the transport maps the request
the adapter builds to an outcome (`responded status body` or `thrown`),
which captures every status code and thrown network error the code handles.
-/

namespace VectHare

/-- JavaScript strings, modeled as lists of characters. -/
abbrev JStr := List Char

/-- JS `String.prototype.split` with a one-character separator: splits the
string at every occurrence of the separator, keeping empty segments, and
always returns at least one segment. -/
def jsSplit (sep : Char) : JStr → List JStr
  | [] => [[]]
  | c :: rest =>
    if c = sep then [] :: jsSplit sep rest
    else (c :: (jsSplit sep rest).headD []) :: (jsSplit sep rest).tail

/-- JS `Array.prototype.join` with a one-character separator. -/
def jsJoin (sep : Char) : List JStr → JStr
  | [] => []
  | [p] => p
  | p :: q :: rest => p ++ sep :: jsJoin sep (q :: rest)

theorem jsSplit_ne_nil (sep : Char) (s : JStr) : jsSplit sep s ≠ [] := by
  cases s with
  | nil => simp [jsSplit]
  | cons c rest =>
    by_cases h : c = sep <;> simp [jsSplit, h]

theorem jsSplit_length_pos (sep : Char) (s : JStr) : 0 < (jsSplit sep s).length :=
  List.length_pos.mpr (jsSplit_ne_nil sep s)

/-- Splitting a string that is a separator-free block, the separator, then a
remainder yields that block followed by the split of the remainder. -/
theorem jsSplit_block (sep : Char) (a b : JStr) (ha : sep ∉ a) :
    jsSplit sep (a ++ sep :: b) = a :: jsSplit sep b := by
  induction a with
  | nil => simp [jsSplit]
  | cons c a ih =>
    have hc : c ≠ sep := by
      intro h; exact ha (h ▸ List.mem_cons_self c a)
    have ha' : sep ∉ a := fun h => ha (List.mem_cons_of_mem c h)
    rw [List.cons_append, jsSplit, if_neg hc, ih ha', List.headD_cons, List.tail_cons]

/-- Joining the segments of a split with the same separator recovers the
original string. -/
theorem jsJoin_jsSplit (sep : Char) (s : JStr) : jsJoin sep (jsSplit sep s) = s := by
  induction s with
  | nil => simp [jsSplit, jsJoin]
  | cons c rest ih =>
    by_cases h : c = sep
    · subst h
      obtain ⟨p, t, hpt⟩ : ∃ p t, jsSplit c rest = p :: t := by
        cases hs : jsSplit c rest with
        | nil => exact absurd hs (jsSplit_ne_nil c rest)
        | cons p t => exact ⟨p, t, rfl⟩
      simp only [jsSplit, if_pos rfl, hpt, jsJoin]
      rw [hpt] at ih
      simpa [jsJoin] using ih
    · obtain ⟨p, t, hpt⟩ : ∃ p t, jsSplit sep rest = p :: t := by
        cases hs : jsSplit sep rest with
        | nil => exact absurd hs (jsSplit_ne_nil sep rest)
        | cons p t => exact ⟨p, t, rfl⟩
      simp only [jsSplit, if_neg h, hpt, List.headD_cons, List.tail_cons]
      rw [hpt] at ih
      cases t with
      | nil => simpa [jsJoin] using congrArg (c :: ·) ih
      | cons q t' => simpa [jsJoin] using congrArg (c :: ·) ih

/-- The first segment of a split is the longest separator-free head of the
string. -/
theorem jsSplit_headD (sep : Char) (s : JStr) :
    (jsSplit sep s).headD [] = s.takeWhile (fun c => !(c = sep : Bool)) := by
  induction s with
  | nil => simp [jsSplit]
  | cons c rest ih =>
    by_cases h : c = sep
    · rw [jsSplit, if_pos h]
      simp [List.takeWhile, h]
    · rw [jsSplit, if_neg h]
      have htw : List.takeWhile (fun c => !(c = sep : Bool)) (c :: rest)
          = c :: List.takeWhile (fun c => !(c = sep : Bool)) rest := by
        simp [List.takeWhile, h]
      rw [htw, List.headD_cons]
      exact congrArg (c :: ·) ih

/-- `QdrantBackend._parseCollectionId` from src/backends/qdrant.js.  A `none`
input stands for a missing or non-string JS value (those fail the
`typeof collectionId !== 'string'` guard); the empty string fails the
falsiness guard `!collectionId` and lands in the same branch. -/
def qdrantParseCollectionId : Option JStr → JStr × JStr
  | none => ("unknown".toList, "unknown".toList)
  | some s =>
    if s = [] then ("unknown".toList, "unknown".toList)
    else if 3 ≤ (jsSplit ':' s).length ∧ (jsSplit ':' s).headD [] = "vh".toList then
      ((jsSplit ':' s).getD 1 [], jsJoin ':' ((jsSplit ':' s).drop 2))
    else if 3 ≤ (jsSplit '_' s).length ∧ (jsSplit '_' s).headD [] = "vecthare".toList then
      ((jsSplit '_' s).getD 1 [], jsJoin '_' ((jsSplit '_' s).drop 2))
    else ("chat".toList, s)

/-- `MilvusBackend._parseCollectionId` from src/backends/lancedb.js, the
Milvus adapter section; the body duplicates the Qdrant decoder line for
line. -/
def milvusParseCollectionId : Option JStr → JStr × JStr
  | none => ("unknown".toList, "unknown".toList)
  | some s =>
    if s = [] then ("unknown".toList, "unknown".toList)
    else if 3 ≤ (jsSplit ':' s).length ∧ (jsSplit ':' s).headD [] = "vh".toList then
      ((jsSplit ':' s).getD 1 [], jsJoin ':' ((jsSplit ':' s).drop 2))
    else if 3 ≤ (jsSplit '_' s).length ∧ (jsSplit '_' s).headD [] = "vecthare".toList then
      ((jsSplit '_' s).getD 1 [], jsJoin '_' ((jsSplit '_' s).drop 2))
    else ("chat".toList, s)

theorem jsSplit_of_not_mem (sep : Char) (s : JStr) (h : sep ∉ s) : jsSplit sep s = [s] := by
  induction s with
  | nil => rfl
  | cons c rest ih =>
    have hc : c ≠ sep := fun e => h (e ▸ List.mem_cons_self c rest)
    rw [jsSplit, if_neg hc, ih (fun m => h (List.mem_cons_of_mem c m))]
    rfl

/-- A current-format id splits at the colons into the tag, the type and the
segments of the source id. -/
theorem jsSplit_vh (t u : JStr) (ht : ':' ∉ t) :
    jsSplit ':' ('v' :: 'h' :: ':' :: (t ++ ':' :: u)) = "vh".toList :: t :: jsSplit ':' u := by
  have h1 : ('v' :: 'h' :: ':' :: (t ++ ':' :: u))
      = "vh".toList ++ ':' :: (t ++ ':' :: u) := rfl
  rw [h1, jsSplit_block ':' "vh".toList _ (by decide), jsSplit_block ':' t u ht]

/-- Decoding a current-format id `vh:<type>:<sourceId>` recovers the type and
the source id, the source id keeping any further colons. -/
theorem qdrantParse_vh (t u : JStr) (ht : ':' ∉ t) :
    qdrantParseCollectionId (some ('v' :: 'h' :: ':' :: (t ++ ':' :: u))) = (t, u) := by
  have hsplit := jsSplit_vh t u ht
  have hcond : 3 ≤ (jsSplit ':' ('v' :: 'h' :: ':' :: (t ++ ':' :: u))).length ∧
      (jsSplit ':' ('v' :: 'h' :: ':' :: (t ++ ':' :: u))).headD [] = "vh".toList := by
    rw [hsplit]
    refine ⟨?_, rfl⟩
    have := jsSplit_length_pos ':' u
    simp only [List.length_cons]
    omega
  simp only [qdrantParseCollectionId,
    if_neg (by simp : ¬('v' :: 'h' :: ':' :: (t ++ ':' :: u)) = []), if_pos hcond, hsplit]
  simp [jsJoin_jsSplit, List.getD]
  intro h
  exact absurd h (jsSplit_ne_nil ':' u)

/-- Decoding a legacy id `vecthare_<type>_<sourceId>` recovers the type and
the source id, the source id keeping any further underscores. -/
theorem qdrantParse_legacy (t u : JStr) (ht : '_' ∉ t) :
    qdrantParseCollectionId (some ("vecthare".toList ++ '_' :: (t ++ '_' :: u))) = (t, u) := by
  have hhead : (jsSplit ':' ("vecthare".toList ++ '_' :: (t ++ '_' :: u))).headD []
      ≠ "vh".toList := by
    rw [jsSplit_headD,
      show "vecthare".toList ++ '_' :: (t ++ '_' :: u)
        = 'v' :: 'e' :: ("cthare".toList ++ '_' :: (t ++ '_' :: u)) from rfl]
    intro h
    rw [List.takeWhile_cons, List.takeWhile_cons] at h
    simp at h
  have hguard1 : ¬(3 ≤ (jsSplit ':' ("vecthare".toList ++ '_' :: (t ++ '_' :: u))).length ∧
      (jsSplit ':' ("vecthare".toList ++ '_' :: (t ++ '_' :: u))).headD [] = "vh".toList) :=
    fun hc => hhead hc.2
  have hsplit : jsSplit '_' ("vecthare".toList ++ '_' :: (t ++ '_' :: u))
      = "vecthare".toList :: t :: jsSplit '_' u := by
    rw [jsSplit_block '_' "vecthare".toList _ (by decide), jsSplit_block '_' t u ht]
  have hcond : 3 ≤ (jsSplit '_' ("vecthare".toList ++ '_' :: (t ++ '_' :: u))).length ∧
      (jsSplit '_' ("vecthare".toList ++ '_' :: (t ++ '_' :: u))).headD []
        = "vecthare".toList := by
    rw [hsplit]
    refine ⟨?_, rfl⟩
    have := jsSplit_length_pos '_' u
    simp only [List.length_cons]
    omega
  simp only [qdrantParseCollectionId,
    if_neg (by simp : ¬("vecthare".toList ++ '_' :: (t ++ '_' :: u)) = []),
    if_neg hguard1, if_pos hcond, hsplit]
  simp [jsJoin_jsSplit, List.getD]
  intro h
  exact absurd h (jsSplit_ne_nil '_' u)

/-- No segment of a split contains the separator. -/
theorem jsSplit_seg_not_mem (sep : Char) (s : JStr) : ∀ p ∈ jsSplit sep s, sep ∉ p := by
  induction s with
  | nil =>
    intro p hp
    simp [jsSplit] at hp
    subst hp
    simp
  | cons c rest ih =>
    intro p hp
    by_cases hc : c = sep
    · rw [jsSplit, if_pos hc] at hp
      rcases List.mem_cons.mp hp with h | h
      · subst h; simp
      · exact ih p h
    · rw [jsSplit, if_neg hc] at hp
      obtain ⟨q, t, hqt⟩ : ∃ q t, jsSplit sep rest = q :: t := by
        cases hs : jsSplit sep rest with
        | nil => exact absurd hs (jsSplit_ne_nil sep rest)
        | cons q t => exact ⟨q, t, rfl⟩
      rw [hqt] at hp
      simp only [List.headD_cons, List.tail_cons] at hp
      have hq : q ∈ jsSplit sep rest := by rw [hqt]; exact List.mem_cons_self q t
      rcases List.mem_cons.mp hp with h | h
      · subst h
        intro hmem
        rcases List.mem_cons.mp hmem with he | he
        · exact hc he.symm
        · exact ih q hq he
      · exact ih p (by rw [hqt]; exact List.mem_cons_of_mem q h)

/-- The guard `parts.length >= 3 && parts[0] === tag` of the decoder holds
exactly for the strings of the shape `tag ++ sep ++ t ++ sep ++ u` with a
separator-free t: the grammar of a tagged two-delimiter id. -/
theorem jsSplit_guard_iff (sep : Char) (tag : JStr) (hsep : sep ∉ tag) (s : JStr) :
    (3 ≤ (jsSplit sep s).length ∧ (jsSplit sep s).headD [] = tag)
      ↔ ∃ t u, sep ∉ t ∧ s = tag ++ sep :: (t ++ sep :: u) := by
  constructor
  · rintro ⟨hlen, hhead⟩
    obtain ⟨p0, p1, p2, ps, hps⟩ : ∃ p0 p1 p2 ps, jsSplit sep s = p0 :: p1 :: p2 :: ps := by
      cases h0 : jsSplit sep s with
      | nil => rw [h0] at hlen; simp at hlen
      | cons p0 r0 =>
        cases r0 with
        | nil => rw [h0] at hlen; simp at hlen
        | cons p1 r1 =>
          cases r1 with
          | nil => rw [h0] at hlen; simp at hlen
          | cons p2 ps => exact ⟨p0, p1, p2, ps, rfl⟩
    have hp0 : p0 = tag := by rw [hps] at hhead; simpa using hhead
    refine ⟨p1, jsJoin sep (p2 :: ps), ?_, ?_⟩
    · apply jsSplit_seg_not_mem sep s
      rw [hps]
      exact List.mem_cons_of_mem _ (List.mem_cons_self _ _)
    · calc s = jsJoin sep (jsSplit sep s) := (jsJoin_jsSplit sep s).symm
        _ = jsJoin sep (tag :: p1 :: p2 :: ps) := by rw [hps, hp0]
        _ = tag ++ sep :: (p1 ++ sep :: jsJoin sep (p2 :: ps)) := rfl
  · rintro ⟨t, u, ht, rfl⟩
    rw [jsSplit_block sep tag _ hsep, jsSplit_block sep t u ht]
    refine ⟨?_, rfl⟩
    have := jsSplit_length_pos sep u
    simp only [List.length_cons]
    omega

/-- Every nonempty string matching neither the current-format grammar nor
the legacy grammar decodes through the fallback branch. -/
theorem qdrantParse_fallback_general (s : JStr) (hne : s ≠ [])
    (hvh : ¬ ∃ t u, ':' ∉ t ∧ s = "vh".toList ++ ':' :: (t ++ ':' :: u))
    (hleg : ¬ ∃ t u, '_' ∉ t ∧ s = "vecthare".toList ++ '_' :: (t ++ '_' :: u)) :
    qdrantParseCollectionId (some s) = ("chat".toList, s) := by
  have hguard1 : ¬(3 ≤ (jsSplit ':' s).length ∧ (jsSplit ':' s).headD [] = "vh".toList) :=
    fun hg => hvh ((jsSplit_guard_iff ':' "vh".toList (by decide) s).mp hg)
  have hguard2 : ¬(3 ≤ (jsSplit '_' s).length ∧
      (jsSplit '_' s).headD [] = "vecthare".toList) :=
    fun hg => hleg ((jsSplit_guard_iff '_' "vecthare".toList (by decide) s).mp hg)
  simp only [qdrantParseCollectionId, if_neg hne, if_neg hguard1, if_neg hguard2]

/-- C2 counterexample: the empty string matches neither the current nor the
legacy format, yet it decodes to ("unknown", "unknown"), not to
(type="chat", sourceId=<the entire input>) as the claim states for every
other input, because the decoder's falsiness guard `!collectionId` also
catches the empty string. -/
theorem c2_decode_counterexample :
    qdrantParseCollectionId (some "".toList) = ("unknown".toList, "unknown".toList) ∧
    qdrantParseCollectionId (some "".toList) ≠ ("chat".toList, "".toList) := by decide

/-- C2 (amended): the decoder is a total function; a current-format id
`vh:<type>:<sourceId>` decodes to (type, sourceId) with only the first two
colons significant, a legacy id `vecthare_<type>_<sourceId>` decodes with
only the first two underscores significant, missing or non-string input and
the empty string decode to ("unknown", "unknown"), and every other nonempty
string — every one matching neither grammar — decodes to
("chat", <the entire input>); the three example inputs of the specification
decode as it states. -/
theorem c2_decode_amended :
    (∀ t u : JStr, ':' ∉ t →
      qdrantParseCollectionId (some ('v' :: 'h' :: ':' :: (t ++ ':' :: u))) = (t, u)) ∧
    (∀ t u : JStr, '_' ∉ t →
      qdrantParseCollectionId (some ("vecthare".toList ++ '_' :: (t ++ '_' :: u))) = (t, u)) ∧
    qdrantParseCollectionId (some "vh:chat:abc:def".toList)
      = ("chat".toList, "abc:def".toList) ∧
    qdrantParseCollectionId (some "vecthare_doc_char_456".toList)
      = ("doc".toList, "char_456".toList) ∧
    qdrantParseCollectionId (some "garbage".toList) = ("chat".toList, "garbage".toList) ∧
    (∀ s : JStr, s ≠ [] →
      (¬ ∃ t u, ':' ∉ t ∧ s = "vh".toList ++ ':' :: (t ++ ':' :: u)) →
      (¬ ∃ t u, '_' ∉ t ∧ s = "vecthare".toList ++ '_' :: (t ++ '_' :: u)) →
      qdrantParseCollectionId (some s) = ("chat".toList, s)) ∧
    qdrantParseCollectionId none = ("unknown".toList, "unknown".toList) ∧
    qdrantParseCollectionId (some []) = ("unknown".toList, "unknown".toList) :=
  ⟨qdrantParse_vh, qdrantParse_legacy, by decide, by decide, by decide,
    qdrantParse_fallback_general, by decide, by decide⟩

/-- C2 witness: the general clauses of the amended statement evaluated on
concrete ids of each shape, including fallback inputs that do contain
delimiters without matching either grammar. -/
theorem c2_decode_amended_witness :
    qdrantParseCollectionId (some "vh:doc:a_b:c".toList) = ("doc".toList, "a_b:c".toList) ∧
    qdrantParseCollectionId (some "vecthare_lorebook_w_1".toList)
      = ("lorebook".toList, "w_1".toList) ∧
    qdrantParseCollectionId (some "abc:def".toList) = ("chat".toList, "abc:def".toList) ∧
    qdrantParseCollectionId (some "vh:x".toList) = ("chat".toList, "vh:x".toList) :=
  ⟨c2_decode_amended.1 "doc".toList "a_b:c".toList (by decide),
   c2_decode_amended.2.1 "lorebook".toList "w_1".toList (by decide),
   c2_decode_amended.2.2.2.2.2.1 "abc:def".toList (by decide)
     (fun hex => absurd
       ((jsSplit_guard_iff ':' "vh".toList (by decide) "abc:def".toList).mpr hex)
       (by decide))
     (fun hex => absurd
       ((jsSplit_guard_iff '_' "vecthare".toList (by decide) "abc:def".toList).mpr hex)
       (by decide)),
   c2_decode_amended.2.2.2.2.2.1 "vh:x".toList (by decide)
     (fun hex => absurd
       ((jsSplit_guard_iff ':' "vh".toList (by decide) "vh:x".toList).mpr hex)
       (by decide))
     (fun hex => absurd
       ((jsSplit_guard_iff '_' "vecthare".toList (by decide) "vh:x".toList).mpr hex)
       (by decide))⟩

/-- C10: the Qdrant and the Milvus adapters duplicate the collection-id
decoder; the two decoders agree on every input, strings of every shape and
missing or non-string values alike, so both backends derive the same tenant
filter from the same collection id. -/
theorem c10_parse_equivalence :
    ∀ x : Option JStr, qdrantParseCollectionId x = milvusParseCollectionId x :=
  fun _ => rfl

/-- Outcome of one JS `fetch` round trip: either the server responded with a
status code and a decoded JSON body, or the call threw (network error,
malformed body). -/
inductive FetchOutcome (α : Type) where
  | responded (status : Nat) (body : α)
  | thrown
deriving DecidableEq

/-- JS `Response.ok`: status in the inclusive range 200-299. -/
def respOk (status : Nat) : Bool := 200 ≤ status && status ≤ 299

/-- Error conditions an adapter method can surface to its caller; they stand
for the `Error` objects the JS code throws. -/
inductive JsErr where
  | capabilityUnavailable
  | remoteFailed (status : Nat)
  | networkThrown
deriving DecidableEq

deriving instance DecidableEq for Except

/-- The caller-supplied settings fields the verified operations read.
Fields a JS caller may leave `undefined` are `Option`s. -/
structure Settings where
  source : Option JStr := none
  score_threshold : Option ℚ := none
  use_alt_endpoint : Bool := false
  alt_endpoint_url : Option JStr := none
  ollama_keep : Option Bool := none
deriving DecidableEq

/-- One result row of a plugin query response: the fields
`data.results[i].hash / .text / .score` that the adapters read.  The open
per-row metadata bag is not modeled; none of the verified claims depends on
it. -/
structure ChunkRow where
  hash : JStr
  text : JStr
  score : ℚ
deriving DecidableEq, Inhabited

/-- The `{hashes, metadata}` pair the plugin-backed adapters return from a
query. -/
structure QueryResult where
  hashes : List JStr
  metadata : List ChunkRow
deriving DecidableEq, Inhabited

/-- The body the plugin-backed query endpoints send to
`/api/plugins/similharity/chunks/query`.  The `source`, `model` and
provider-specific fields also present in the JS payload are omitted: none of
them is named `threshold`, `topK` or `filters`, so the object spread of the
provider parameters cannot overwrite the fields modeled here. -/
structure QueryRequest where
  backend : Option JStr
  collectionId : JStr
  searchText : JStr
  topK : Nat
  threshold : ℚ
  filters : Option (JStr × JStr)
  embeddings : Option (JStr × List ℚ)
deriving DecidableEq

/-- The query request `QdrantBackend.queryCollection` builds: fixed physical
collection, tenant filter from the decoded id, and a hard-coded threshold of
0.0 in place of any settings-derived value. -/
def qdrantQueryRequest (collectionId : Option JStr) (searchText : JStr) (topK : Nat)
    (_settings : Settings) : QueryRequest :=
  { backend := some "qdrant".toList, collectionId := "vecthare_main".toList,
    searchText := searchText, topK := topK, threshold := 0,
    filters := some (qdrantParseCollectionId collectionId), embeddings := none }

/-- The query request `LanceDBBackend.queryCollection` builds: the logical
collection id passes through unchanged, and the threshold is the hard-coded
0.0. -/
def lancedbQueryRequest (collectionId : JStr) (searchText : JStr) (topK : Nat)
    (_settings : Settings) : QueryRequest :=
  { backend := some "lancedb".toList, collectionId := collectionId,
    searchText := searchText, topK := topK, threshold := 0,
    filters := none, embeddings := none }

/-- The query request `MilvusBackend.queryCollection` builds; same shape as
the Qdrant one with its own backend discriminator and decoder. -/
def milvusQueryRequest (collectionId : Option JStr) (searchText : JStr) (topK : Nat)
    (_settings : Settings) : QueryRequest :=
  { backend := some "milvus".toList, collectionId := "vecthare_main".toList,
    searchText := searchText, topK := topK, threshold := 0,
    filters := some (milvusParseCollectionId collectionId), embeddings := none }

/-- The request body `StandardBackend.queryCollection` sends to the native
`/api/vector/query` endpoint: the collection id passes through, the
threshold is `settings.score_threshold || 0.0`, and a pre-computed query
vector, when given, rides along as a text-to-vector mapping. -/
def standardQueryRequest (collectionId : JStr) (searchText : JStr) (topK : Nat)
    (settings : Settings) (queryVector : Option (List ℚ)) : QueryRequest :=
  { backend := none, collectionId := collectionId, searchText := searchText,
    topK := topK, threshold := settings.score_threshold.getD 0, filters := none,
    embeddings := queryVector.map (fun v => (searchText, v)) }

/-- `QdrantBackend.queryCollection`: build the request, issue it, and on a
successful response return the rows as parallel hash and metadata arrays; a
non-success status or a thrown fetch propagates as an error. -/
def qdrantQueryCollection (collectionId : Option JStr) (searchText : JStr) (topK : Nat)
    (settings : Settings) (transport : QueryRequest → FetchOutcome (List ChunkRow)) :
    Except JsErr QueryResult :=
  match transport (qdrantQueryRequest collectionId searchText topK settings) with
  | .responded status rows =>
    if respOk status then .ok { hashes := rows.map (·.hash), metadata := rows }
    else .error (.remoteFailed status)
  | .thrown => .error .networkThrown

/-- `LanceDBBackend.queryCollection`: same request-response shape as the
Qdrant one, with the collection id passed through and no tenant filter. -/
def lancedbQueryCollection (collectionId : JStr) (searchText : JStr) (topK : Nat)
    (settings : Settings) (transport : QueryRequest → FetchOutcome (List ChunkRow)) :
    Except JsErr QueryResult :=
  match transport (lancedbQueryRequest collectionId searchText topK settings) with
  | .responded status rows =>
    if respOk status then .ok { hashes := rows.map (·.hash), metadata := rows }
    else .error (.remoteFailed status)
  | .thrown => .error .networkThrown

/-- `MilvusBackend.queryCollection`: same request-response shape as the
Qdrant one, with its own backend discriminator and decoder. -/
def milvusQueryCollection (collectionId : Option JStr) (searchText : JStr) (topK : Nat)
    (settings : Settings) (transport : QueryRequest → FetchOutcome (List ChunkRow)) :
    Except JsErr QueryResult :=
  match transport (milvusQueryRequest collectionId searchText topK settings) with
  | .responded status rows =>
    if respOk status then .ok { hashes := rows.map (·.hash), metadata := rows }
    else .error (.remoteFailed status)
  | .thrown => .error .networkThrown

/-- Modelled from the spec: the plugin-side query endpoint (outside this
repository) returns the stored rows whose scores reach the threshold carried
in the request, capped at the request topK.  Used only to exhibit concrete
end-to-end behavior of the adapters. -/
def honestServer (store : List ChunkRow) : QueryRequest → FetchOutcome (List ChunkRow) :=
  fun req => .responded 200 ((store.filter (fun r => req.threshold ≤ r.score)).take req.topK)

/-- C1 counterexample: with `settings.score_threshold = 1/2` and a stored row
scoring 1/4, the Qdrant adapter's queryCollection returns that row, because
the request it sends carries the hard-coded threshold 0.0 rather than the
caller-supplied one: the result is not restricted to items at or above
`settings.score_threshold`. -/
theorem c1_threshold_counterexample :
    qdrantQueryCollection (some "vh:chat:x".toList) "q".toList 5
        { score_threshold := some (1/2) }
        (honestServer [{ hash := "h1".toList, text := "t".toList, score := 1/4 }])
      = .ok { hashes := ["h1".toList],
              metadata := [{ hash := "h1".toList, text := "t".toList, score := 1/4 }] } ∧
    (1/4 : ℚ) < 1/2 := by
  constructor
  · unfold qdrantQueryCollection honestServer qdrantQueryRequest
    norm_num [respOk, List.filter, List.take]
  · norm_num

/-- C1 (amended): only the Standard adapter forwards
`settings.score_threshold` in its query request; the Qdrant, LanceDB and
Milvus adapters send the constant threshold 0.0, and each of the three
returns the server rows unfiltered, so on those adapters the caller-supplied
settings threshold does not restrict the result of queryCollection. -/
theorem c1_threshold_amended :
    (∀ cid text topK st, (qdrantQueryRequest cid text topK st).threshold = 0) ∧
    (∀ cid text topK st, (lancedbQueryRequest cid text topK st).threshold = 0) ∧
    (∀ cid text topK st, (milvusQueryRequest cid text topK st).threshold = 0) ∧
    (∀ cid text topK st qv,
      (standardQueryRequest cid text topK st qv).threshold = st.score_threshold.getD 0) ∧
    (∀ cid text topK st rows,
      qdrantQueryCollection cid text topK st (fun _ => .responded 200 rows)
        = .ok { hashes := rows.map (·.hash), metadata := rows }) ∧
    (∀ cid text topK st rows,
      lancedbQueryCollection cid text topK st (fun _ => .responded 200 rows)
        = .ok { hashes := rows.map (·.hash), metadata := rows }) ∧
    (∀ cid text topK st rows,
      milvusQueryCollection cid text topK st (fun _ => .responded 200 rows)
        = .ok { hashes := rows.map (·.hash), metadata := rows }) :=
  ⟨fun _ _ _ _ => rfl, fun _ _ _ _ => rfl, fun _ _ _ _ => rfl, fun _ _ _ _ _ => rfl,
   fun _ _ _ _ _ => rfl, fun _ _ _ _ _ => rfl, fun _ _ _ _ _ => rfl⟩

/-- The body the multitenant adapters send to
`/api/plugins/similharity/chunks/purge`; `source` and `model` are omitted as
in `QueryRequest`. -/
structure PurgeRequest where
  backend : JStr
  collectionId : JStr
  filters : Option (JStr × JStr)
deriving DecidableEq

/-- The purge request `QdrantBackend.purgeVectorIndex` builds: the shared
physical collection with the tenant filter decoded from the collection
id. -/
def qdrantPurgeVectorIndexRequest (collectionId : Option JStr) (_settings : Settings) :
    PurgeRequest :=
  { backend := "qdrant".toList, collectionId := "vecthare_main".toList,
    filters := some (qdrantParseCollectionId collectionId) }

/-- The purge request `QdrantBackend.purgeAllVectorIndexes` builds: the
shared physical collection with no filters field at all ("No filters = purge
everything" in the source). -/
def qdrantPurgeAllVectorIndexesRequest (_settings : Settings) : PurgeRequest :=
  { backend := "qdrant".toList, collectionId := "vecthare_main".toList, filters := none }

/-- The purge request `MilvusBackend.purgeVectorIndex` builds. -/
def milvusPurgeVectorIndexRequest (collectionId : Option JStr) (_settings : Settings) :
    PurgeRequest :=
  { backend := "milvus".toList, collectionId := "vecthare_main".toList,
    filters := some (milvusParseCollectionId collectionId) }

/-- The purge request `MilvusBackend.purgeAllVectorIndexes` builds. -/
def milvusPurgeAllVectorIndexesRequest (_settings : Settings) : PurgeRequest :=
  { backend := "milvus".toList, collectionId := "vecthare_main".toList, filters := none }

/-- One item stored in the shared physical collection, tagged with the
tenant pair that scopes it. -/
structure TenantItem where
  tenantType : JStr
  sourceId : JStr
  hash : JStr
deriving DecidableEq

/-- Modelled from the spec: the server-side purge semantics of the plugin
(outside this repository): a purge request removes exactly the stored items
matching its tenant filter, and every item when the filter is omitted. -/
def applyPurge (store : List TenantItem) (req : PurgeRequest) : List TenantItem :=
  match req.filters with
  | none => []
  | some (t, sid) =>
    store.filter (fun item => !(item.tenantType == t && item.sourceId == sid))

/-- C4: on both multitenant adapters, purgeAllVectorIndexes sends its purge
request with the tenant filter omitted entirely — so under the documented
filter semantics it empties the shared collection across every tenant, for
every store and every caller-supplied settings — while purgeVectorIndex
always attaches the (type, sourceId) filter decoded from the collection
id. -/
theorem c4_purge_filters :
    (∀ settings, (qdrantPurgeAllVectorIndexesRequest settings).filters = none) ∧
    (∀ settings, (milvusPurgeAllVectorIndexesRequest settings).filters = none) ∧
    (∀ cid settings,
      (qdrantPurgeVectorIndexRequest cid settings).filters
        = some (qdrantParseCollectionId cid)) ∧
    (∀ cid settings,
      (milvusPurgeVectorIndexRequest cid settings).filters
        = some (milvusParseCollectionId cid)) ∧
    (∀ settings store, applyPurge store (qdrantPurgeAllVectorIndexesRequest settings) = []) ∧
    (∀ settings store, applyPurge store (milvusPurgeAllVectorIndexesRequest settings) = []) :=
  ⟨fun _ => rfl, fun _ => rfl, fun _ _ => rfl, fun _ _ => rfl,
   fun _ _ => rfl, fun _ _ => rfl⟩

/-- One item handed to insertVectorItems: content hash, raw text, optional
position index and optional pre-computed embedding vector.  The open domain
metadata bag (importance, keywords, weights, grouping, conditions, summary
linkage) is not modeled; the verified claims concern the vectors. -/
structure VectorItem where
  hash : JStr
  text : JStr
  index : Option Nat := none
  vector : Option (List ℚ) := none
deriving DecidableEq, Inhabited

/-- One entry of the `items` array in the native insert payload: the
Standard adapter sends hash, text and `index ?? 0`, and no vector field. -/
structure StdInsertItem where
  hash : JStr
  text : JStr
  index : Nat
deriving DecidableEq

/-- The body `StandardBackend.insertVectorItems` sends to
`/api/vector/insert`.  The `embeddings` field models
`Object.fromEntries(items.map(i => [i.text, i.vector]))` as the entry list
it is built from (the object keys later entries overwrite are read by the
server keyed on text; the claims only concern which vectors appear). -/
structure StdInsertRequest where
  collectionId : JStr
  items : List StdInsertItem
  embeddings : Option (List (JStr × Option (List ℚ)))
deriving DecidableEq

/-- `StandardBackend.insertVectorItems`, up to the request it sends: `none`
models the early return on an empty item list (no network call); the
`embeddings` mapping is attached only when `items[0]?.vector` is truthy (an
array is always truthy, so: present). -/
def standardInsertRequest (collectionId : JStr) (items : List VectorItem)
    (_settings : Settings) : Option StdInsertRequest :=
  if items.length = 0 then none
  else some
    { collectionId := collectionId,
      items := items.map (fun i => { hash := i.hash, text := i.text, index := i.index.getD 0 }),
      embeddings :=
        if (items.head?.bind (·.vector)).isSome then
          some (items.map (fun i => (i.text, i.vector)))
        else none }

/-- One entry of the `items` array in the plugin insert payload: the Qdrant
adapter forwards each item's own vector field. -/
structure QdrantInsertItem where
  hash : JStr
  text : JStr
  index : Option Nat
  vector : Option (List ℚ)
deriving DecidableEq

/-- The body `QdrantBackend.insertVectorItems` sends to
`/api/plugins/similharity/chunks/insert` (the merged per-item metadata bag
is omitted as in `VectorItem`). -/
structure QdrantInsertRequest where
  collectionId : JStr
  items : List QdrantInsertItem
  filters : Option (JStr × JStr)
deriving DecidableEq

/-- `QdrantBackend.insertVectorItems`, up to the request it sends: `none`
models the early return on an empty item list. -/
def qdrantInsertRequest (collectionId : Option JStr) (items : List VectorItem)
    (_settings : Settings) : Option QdrantInsertRequest :=
  if items.length = 0 then none
  else some
    { collectionId := "vecthare_main".toList,
      items := items.map (fun i =>
        { hash := i.hash, text := i.text, index := i.index, vector := i.vector }),
      filters := some (qdrantParseCollectionId collectionId) }

/-- C5 counterexample: a two-item batch whose first item has no vector and
whose second item carries one.  The Standard adapter gates the whole
embeddings mapping on `items[0]?.vector`, so the request carries no
embeddings at all and the second item's vector is not forwarded, against the
claim that every vector-carrying item has its vector forwarded regardless of
which items carry vectors. -/
theorem c5_insert_counterexample :
    (standardInsertRequest "c".toList
        [{ hash := "a".toList, text := "ta".toList },
         { hash := "b".toList, text := "tb".toList, vector := some [1] }] {}).map
      (fun r => r.embeddings) = some none ∧
    (([{ hash := "a".toList, text := "ta".toList },
      { hash := "b".toList, text := "tb".toList, vector := some [1] }] :
        List VectorItem).getD 1 default).vector.isSome = true := by
  constructor
  · rfl
  · rfl

/-- C5 (amended): both adapters no-op on an empty item list; the Qdrant
adapter forwards every item's vector in the per-item payloads; the Standard
adapter attaches the text-to-vector embeddings mapping — covering every item
in the batch — exactly when the first item carries a vector, and forwards no
vector otherwise. -/
theorem c5_insert_amended :
    (∀ cid st, standardInsertRequest cid [] st = none) ∧
    (∀ cid st, qdrantInsertRequest cid [] st = none) ∧
    (∀ cid items st req, qdrantInsertRequest cid items st = some req →
      req.items.map (·.vector) = items.map (·.vector)) ∧
    (∀ cid items st req, standardInsertRequest cid items st = some req →
      (items.head?.bind (·.vector)).isSome = true →
      req.embeddings = some (items.map (fun i => (i.text, i.vector)))) ∧
    (∀ cid items st req, standardInsertRequest cid items st = some req →
      items.head?.bind (·.vector) = none →
      req.embeddings = none) := by
  refine ⟨fun _ _ => rfl, fun _ _ => rfl, ?_, ?_, ?_⟩
  · intro cid items st req h
    unfold qdrantInsertRequest at h
    split at h
    · exact absurd h (by simp)
    · cases h
      simp [List.map_map, Function.comp]
  · intro cid items st req h hv
    unfold standardInsertRequest at h
    split at h
    · exact absurd h (by simp)
    · cases h
      simp [hv]
  · intro cid items st req h hv
    unfold standardInsertRequest at h
    split at h
    · exact absurd h (by simp)
    · cases h
      simp [hv]

/-- C5 witness: the amended statement evaluated on concrete batches, one
whose first item carries a vector and one led by a vector-less item. -/
theorem c5_insert_amended_witness :
    (standardInsertRequest "c".toList
        [{ hash := "a".toList, text := "t".toList, vector := some [2] }] {}).map
      (fun r => r.embeddings) = some (some [("t".toList, some [2])]) ∧
    standardInsertRequest "c".toList [] {} = none := by
  constructor
  · obtain ⟨req, hreq⟩ :
        ∃ req, standardInsertRequest "c".toList
          [{ hash := "a".toList, text := "t".toList, vector := some [2] }] {} = some req :=
      ⟨_, rfl⟩
    have h := c5_insert_amended.2.2.2.1 _ _ _ _ hreq (by rfl)
    rw [hreq]
    simp [h]
  · exact c5_insert_amended.1 "c".toList {}

/-- One entry of the `metadata` array in a native query response: an open JS
object of which the adapter reads `text`, `score` and — through the object
spread — a possibly embedded `hash` field; each is absent when the server
did not send it. -/
structure RespMeta where
  hash : Option JStr := none
  text : Option JStr := none
  score : Option ℚ := none
deriving DecidableEq, Inhabited

/-- One entry of the metadata array the Standard adapter returns from a
query. -/
structure OutMeta where
  hash : Option JStr
  text : Option JStr
  score : ℚ
deriving DecidableEq, Inhabited

/-- The `{hashes: [], metadata: []}` body of a native `/api/vector/query`
response; either array may be absent. -/
structure NativeQueryResp where
  hashes : Option (List JStr) := none
  metadata : Option (List RespMeta) := none
deriving DecidableEq, Inhabited

/-- The result shape `StandardBackend.queryCollection` returns. -/
structure StdQueryResult where
  hashes : List JStr
  metadata : List OutMeta
deriving DecidableEq, Inhabited

/-- The per-entry mapping
`(m, idx) => ({hash: data.hashes?.[idx], text: m.text, score: m.score || 0, ...m})`
of `StandardBackend.queryCollection`: the object literal sets the positional
hash first and then spreads the response entry, so a `hash` field embedded
in the entry overwrites the positional one; `text` is the entry's own text
either way, and `score` falls back to 0 only when the entry carries none. -/
def standardZipMeta (hashes : Option (List JStr)) : Nat → List RespMeta → List OutMeta
  | _, [] => []
  | idx, m :: rest =>
    { hash :=
        match m.hash with
        | some h => some h
        | none => hashes.bind (fun hs => hs[idx]?),
      text := m.text,
      score := m.score.getD 0 } :: standardZipMeta hashes (idx + 1) rest

/-- The response normalization of `StandardBackend.queryCollection`:
`data.hashes || []` passes through and the metadata array is zipped with the
positional hashes. -/
def standardNormalizeQuery (data : NativeQueryResp) : StdQueryResult :=
  { hashes := data.hashes.getD [],
    metadata := standardZipMeta data.hashes 0 (data.metadata.getD []) }

/-- `StandardBackend.queryCollection`: build the native query request, issue
it, and normalize the `{hashes, metadata}` response; a non-success status or
a thrown fetch propagates as an error. -/
def standardQueryCollection (collectionId : JStr) (searchText : JStr) (topK : Nat)
    (settings : Settings) (queryVector : Option (List ℚ))
    (transport : QueryRequest → FetchOutcome NativeQueryResp) :
    Except JsErr StdQueryResult :=
  match transport (standardQueryRequest collectionId searchText topK settings queryVector) with
  | .responded status body =>
    if respOk status then .ok (standardNormalizeQuery body)
    else .error (.remoteFailed status)
  | .thrown => .error .networkThrown

theorem standardZipMeta_getElem? (hashes : Option (List JStr)) (ms : List RespMeta) :
    ∀ (n i : Nat), (standardZipMeta hashes n ms)[i]? = (ms[i]?).map (fun m =>
      ({ hash :=
           match m.hash with
           | some h => some h
           | none => hashes.bind (fun hs => hs[n + i]?),
         text := m.text,
         score := m.score.getD 0 } : OutMeta)) := by
  induction ms with
  | nil => intro n i; simp [standardZipMeta]
  | cons m rest ih =>
    intro n i
    cases i with
    | zero => simp [standardZipMeta]
    | succ j =>
      simp only [standardZipMeta, List.getElem?_cons_succ]
      rw [ih (n + 1) j]
      have harith : n + 1 + j = n + (j + 1) := by omega
      rw [harith]

/-- C6 counterexample: a native response whose single metadata entry embeds
its own `hash` field.  Because the object spread comes after the positional
assignment, the embedded identifier wins: the returned entry carries "evil",
not the positional `hashes[0] = "h0"`, against the claim that the zipped
hash is never an identifier embedded inside the metadata entry. -/
theorem c6_zip_counterexample :
    standardQueryCollection "c".toList "q".toList 5 {} none
        (fun _ => .responded 200
          { hashes := some ["h0".toList],
            metadata := some [{ hash := some "evil".toList, text := some "t".toList }] })
      = .ok { hashes := ["h0".toList],
              metadata := [{ hash := some "evil".toList, text := some "t".toList,
                             score := 0 }] } ∧
    "evil".toList ≠ "h0".toList := by
  exact ⟨rfl, by decide⟩

/-- C6 (amended): the returned hashes array equals the response hashes array
in order, and the i-th returned metadata entry carries the positional hash
`hashes[i]` whenever the i-th response entry embeds no hash field of its
own; when it does embed one, the embedded identifier overrides the
positional hash (object-spread order). -/
theorem c6_zip_amended :
    (∀ data : NativeQueryResp, (standardNormalizeQuery data).hashes = data.hashes.getD []) ∧
    (∀ data : NativeQueryResp, ∀ i : Nat, ∀ m : RespMeta,
      (data.metadata.getD [])[i]? = some m → m.hash = none →
      ((standardNormalizeQuery data).metadata[i]?).map (·.hash)
        = some (data.hashes.bind (fun hs => hs[i]?))) ∧
    (∀ data : NativeQueryResp, ∀ i : Nat, ∀ m : RespMeta, ∀ h : JStr,
      (data.metadata.getD [])[i]? = some m → m.hash = some h →
      ((standardNormalizeQuery data).metadata[i]?).map (·.hash) = some (some h)) := by
  refine ⟨fun _ => rfl, ?_, ?_⟩
  · intro data i m hm hhash
    simp only [standardNormalizeQuery, standardZipMeta_getElem? data.hashes _ 0 i, hm,
      Option.map_some]
    simp [hhash]
  · intro data i m h hm hhash
    simp only [standardNormalizeQuery, standardZipMeta_getElem? data.hashes _ 0 i, hm,
      Option.map_some]
    simp [hhash]

/-- C6 witness: the amended statement evaluated on a response whose only
metadata entry embeds no hash, where the positional hash comes through. -/
theorem c6_zip_amended_witness :
    ((standardNormalizeQuery
        { hashes := some ["h0".toList], metadata := some [{}] }).metadata[0]?).map
      (·.hash) = some (some "h0".toList) := by
  have h := c6_zip_amended.2.1
    { hashes := some ["h0".toList], metadata := some [({} : RespMeta)] } 0 {} rfl rfl
  simpa using h

/-- The body of one per-collection response inside
`queryMultipleCollections` on the plugin-backed adapters: the code reads
`data.results || data.chunks || []`. -/
structure MultiResp where
  results : Option (List ChunkRow) := none
  chunks : Option (List ChunkRow) := none
deriving DecidableEq

/-- `data.results || data.chunks || []`: a present array wins even when
empty, because arrays are truthy in JS. -/
def rowsOf (r : MultiResp) : List ChunkRow :=
  match r.results with
  | some l => l
  | none => r.chunks.getD []

/-- The per-collection query request `QdrantBackend.queryMultipleCollections`
builds: unlike the single-collection path, the explicit threshold argument is
forwarded. -/
def qdrantMultiQueryRequest (collectionId : Option JStr) (searchText : JStr) (topK : Nat)
    (threshold : ℚ) (_settings : Settings) : QueryRequest :=
  { backend := some "qdrant".toList, collectionId := "vecthare_main".toList,
    searchText := searchText, topK := topK, threshold := threshold,
    filters := some (qdrantParseCollectionId collectionId), embeddings := none }

/-- `QdrantBackend.queryMultipleCollections`: one request per requested id,
assigned into a result object keyed by the id; a non-success status or a
thrown fetch degrades that one entry to `{hashes: [], metadata: []}` inside
the loop's try/catch.  The JS result object is modeled as the key-to-value
mapping the loop of assignments builds. -/
def qdrantQueryMultipleCollections (collectionIds : List JStr) (searchText : JStr)
    (topK : Nat) (threshold : ℚ) (settings : Settings)
    (transport : QueryRequest → FetchOutcome MultiResp) : JStr → Option QueryResult :=
  collectionIds.foldl
    (fun results cid => fun k =>
      if k = cid then
        some (match transport
            (qdrantMultiQueryRequest (some cid) searchText topK threshold settings) with
          | .responded status body =>
            if respOk status then
              { hashes := (rowsOf body).map (·.hash), metadata := rowsOf body }
            else { hashes := [], metadata := [] }
          | .thrown => { hashes := [], metadata := [] })
      else results k)
    (fun _ => none)

/-- `StandardBackend.queryMultipleCollections`: one native query-multi call;
on a non-success status it falls back to querying each collection
individually, each wrapped in its own try/catch that degrades a failure to
the empty result; the parsed body of a successful call is returned verbatim.
A thrown fetch on the combined call is not caught and propagates. -/
def standardQueryMultipleCollections (collectionIds : List JStr) (searchText : JStr)
    (topK : Nat) (_threshold : ℚ) (settings : Settings) (queryVector : Option (List ℚ))
    (multi : FetchOutcome (JStr → Option StdQueryResult))
    (single : JStr → FetchOutcome NativeQueryResp) :
    Except JsErr (JStr → Option StdQueryResult) :=
  match multi with
  | .responded status body =>
    if respOk status then .ok body
    else .ok (collectionIds.foldl
        (fun results cid => fun k =>
          if k = cid then
            some (match standardQueryCollection cid searchText topK settings queryVector
                (fun _ => single cid) with
              | .ok r => r
              | .error _ => { hashes := [], metadata := [] })
          else results k)
        (fun _ => none))
  | .thrown => .error .networkThrown

/-- Looking up a key in the mapping built by a loop of keyed assignments
whose assigned value depends only on the key. -/
theorem foldl_objAssign_apply {β : Type} (f : JStr → β) (ids : List JStr)
    (init : JStr → Option β) (k : JStr) :
    (ids.foldl (fun acc cid => fun x => if x = cid then some (f cid) else acc x) init) k
      = if k ∈ ids then some (f k) else init k := by
  induction ids generalizing init with
  | nil => simp
  | cons cid rest ih =>
    simp only [List.foldl_cons]
    rw [ih]
    by_cases hk : k ∈ rest
    · simp [hk]
    · by_cases hkc : k = cid
      · subst hkc; simp [hk]
      · simp [hk, hkc]

/-- C3 counterexample: on the Standard adapter a thrown network error on the
combined native query-multi request is not caught — only a non-success
status triggers the per-collection fallback — so the exception escapes
queryMultipleCollections instead of degrading the failed entries. -/
theorem c3_multi_counterexample :
    standardQueryMultipleCollections ["a".toList] "q".toList 3 0 {} none
      .thrown (fun _ => .thrown) = .error .networkThrown := rfl

/-- C3 (amended): per-collection failures are isolated.  On the Qdrant
adapter every requested id gets its own entry, a failing per-collection call
(error status or thrown) degrades exactly that entry to the empty result,
a successful one yields its own rows, ids outside the request get no entry,
and no exception escapes.  On the Standard adapter a successful query-multi
response is returned as the per-id mapping, and a non-success status
triggers the per-collection fallback with the same isolation; only a thrown
network error on the combined call itself propagates (the counterexample). -/
theorem c3_multi_amended :
    (∀ ids text topK thr st tr cid status body, cid ∈ ids →
      tr (qdrantMultiQueryRequest (some cid) text topK thr st) = .responded status body →
      respOk status = true →
      qdrantQueryMultipleCollections ids text topK thr st tr cid
        = some { hashes := (rowsOf body).map (·.hash), metadata := rowsOf body }) ∧
    (∀ ids text topK thr st tr cid status body, cid ∈ ids →
      tr (qdrantMultiQueryRequest (some cid) text topK thr st) = .responded status body →
      respOk status = false →
      qdrantQueryMultipleCollections ids text topK thr st tr cid
        = some { hashes := [], metadata := [] }) ∧
    (∀ ids text topK thr st tr cid, cid ∈ ids →
      tr (qdrantMultiQueryRequest (some cid) text topK thr st) = .thrown →
      qdrantQueryMultipleCollections ids text topK thr st tr cid
        = some { hashes := [], metadata := [] }) ∧
    (∀ ids text topK thr st tr cid, cid ∉ ids →
      qdrantQueryMultipleCollections ids text topK thr st tr cid = none) ∧
    (∀ ids text topK thr st qv single status body, respOk status = true →
      standardQueryMultipleCollections ids text topK thr st qv
        (.responded status body) single = .ok body) ∧
    (∀ ids text topK thr st qv single status body, respOk status = false →
      ∃ m, standardQueryMultipleCollections ids text topK thr st qv
          (.responded status body) single = .ok m ∧
        (∀ cid, cid ∈ ids →
          m cid = some (match single cid with
            | .responded s b =>
              if respOk s then standardNormalizeQuery b
              else { hashes := [], metadata := [] }
            | .thrown => { hashes := [], metadata := [] })) ∧
        (∀ cid, cid ∉ ids → m cid = none)) := by
  refine ⟨?_, ?_, ?_, ?_, ?_, ?_⟩
  · intro ids text topK thr st tr cid status body hmem htr hok
    unfold qdrantQueryMultipleCollections
    rw [foldl_objAssign_apply, if_pos hmem, htr]
    simp [hok]
  · intro ids text topK thr st tr cid status body hmem htr hko
    unfold qdrantQueryMultipleCollections
    rw [foldl_objAssign_apply, if_pos hmem, htr]
    simp [hko]
  · intro ids text topK thr st tr cid hmem htr
    unfold qdrantQueryMultipleCollections
    rw [foldl_objAssign_apply, if_pos hmem, htr]
  · intro ids text topK thr st tr cid hmem
    unfold qdrantQueryMultipleCollections
    rw [foldl_objAssign_apply, if_neg hmem]
  · intro ids text topK thr st qv single status body hok
    simp [standardQueryMultipleCollections, hok]
  · intro ids text topK thr st qv single status body hko
    have hmain : standardQueryMultipleCollections ids text topK thr st qv
        (.responded status body) single
        = .ok (ids.foldl
            (fun results cid => fun k =>
              if k = cid then
                some (match standardQueryCollection cid text topK st qv
                    (fun _ => single cid) with
                  | .ok r => r
                  | .error _ => { hashes := [], metadata := [] })
              else results k)
            (fun _ => none)) := by
      simp [standardQueryMultipleCollections, hko]
    refine ⟨_, hmain, ?_, ?_⟩
    · intro cid hmem
      rw [foldl_objAssign_apply, if_pos hmem]
      rcases hsc : single cid with ⟨s, b⟩ | _
      · by_cases hs : respOk s
        · simp [standardQueryCollection, hsc, hs]
        · simp [standardQueryCollection, hsc, hs]
      · simp [standardQueryCollection, hsc]
    · intro cid hmem
      rw [foldl_objAssign_apply, if_neg hmem]

/-- C3 witness: the amended statement evaluated on a concrete two-collection
request where the first collection responds and the second one's call
throws: the first entry is populated, the second degrades to empty. -/
theorem c3_multi_amended_witness :
    qdrantQueryMultipleCollections ["a".toList, "b".toList] "q".toList 3 0 {}
        (fun req =>
          if req.filters = some (qdrantParseCollectionId (some "a".toList)) then
            .responded 200 ({ results := some [⟨"h".toList, "t".toList, 1⟩] } : MultiResp)
          else .thrown) "a".toList
      = some { hashes := ["h".toList],
               metadata := [⟨"h".toList, "t".toList, 1⟩] } ∧
    qdrantQueryMultipleCollections ["a".toList, "b".toList] "q".toList 3 0 {}
        (fun req =>
          if req.filters = some (qdrantParseCollectionId (some "a".toList)) then
            .responded 200 ({ results := some [⟨"h".toList, "t".toList, 1⟩] } : MultiResp)
          else .thrown) "b".toList
      = some { hashes := [], metadata := [] } := by
  constructor
  · have h := c3_multi_amended.1 ["a".toList, "b".toList] "q".toList 3 0 {}
      (fun req =>
        if req.filters = some (qdrantParseCollectionId (some "a".toList)) then
          .responded 200 ({ results := some [⟨"h".toList, "t".toList, 1⟩] } : MultiResp)
        else .thrown) "a".toList 200
      ({ results := some [⟨"h".toList, "t".toList, 1⟩] } : MultiResp)
      (by decide) (by decide) rfl
    simpa [rowsOf] using h
  · exact c3_multi_amended.2.2.1 ["a".toList, "b".toList] "q".toList 3 0 {}
      (fun req =>
        if req.filters = some (qdrantParseCollectionId (some "a".toList)) then
          .responded 200 ({ results := some [⟨"h".toList, "t".toList, 1⟩] } : MultiResp)
        else .thrown) "b".toList (by decide) (by decide)

/-- `StandardBackend.healthCheck`: probes the native list endpoint on a
sentinel collection; both 200 (empty collection) and 500 (collection does
not exist yet) count as working, any thrown error as unhealthy; it returns a
boolean on every transport outcome. -/
def standardHealthCheck (tr : FetchOutcome Unit) : Bool :=
  match tr with
  | .responded status _ => status == 200 || status == 500
  | .thrown => false

/-- `StandardBackend.getSavedHashes`: a success status yields the response
array (or the empty list when the body is not an array, after
`Array.isArray`); a 500 is read as "collection does not exist" and yields
the empty list; any other error status or a thrown fetch propagates. -/
def standardGetSavedHashes (tr : FetchOutcome (Option (List JStr))) :
    Except JsErr (List JStr) :=
  match tr with
  | .responded status body =>
    if respOk status then .ok (body.getD [])
    else if status = 500 then .ok []
    else .error (.remoteFailed status)
  | .thrown => .error .networkThrown

/-- C8: the hybrid adapter's healthCheck returns a boolean for every
transport outcome and never propagates an error: it reports healthy exactly
on status 200 or 500 and unhealthy on a thrown network error — a 500 from
the probed native list path means "collection not yet created", the same
convention under which getSavedHashes turns a 500 into the empty hash list
rather than an error. -/
theorem c8_health_semantics :
    (∀ (status : Nat) (b : Unit),
      standardHealthCheck (.responded status b) = true ↔ (status = 200 ∨ status = 500)) ∧
    standardHealthCheck .thrown = false ∧
    (∀ body, standardGetSavedHashes (.responded 500 body) = .ok []) := by
  refine ⟨?_, rfl, fun _ => rfl⟩
  intro status b
  simp [standardHealthCheck]

/-- One chunk as the extended listing returns it: hash, text and a metadata
bag modeled as a field list. -/
structure ChunkEntry where
  hash : JStr
  text : JStr
  metadata : List (JStr × JStr)
deriving DecidableEq

/-- The `{items, total}` result of listChunks. -/
structure ListChunksResult where
  items : List ChunkEntry
  total : Nat
deriving DecidableEq

/-- `StandardBackend.listChunks`: with the plugin available it returns the
plugin response when successful and otherwise falls through; without the
plugin — or on any plugin failure — it wraps the native hash list with empty
text and empty metadata. -/
def standardListChunks (pluginAvailable : Bool) (pluginTr : FetchOutcome ListChunksResult)
    (nativeTr : FetchOutcome (Option (List JStr))) : Except JsErr ListChunksResult :=
  let fallback : Except JsErr ListChunksResult :=
    (standardGetSavedHashes nativeTr).map (fun hashes =>
      { items := hashes.map (fun h => { hash := h, text := [], metadata := [] }),
        total := hashes.length })
  if pluginAvailable then
    match pluginTr with
    | .responded status body => if respOk status then .ok body else fallback
    | .thrown => fallback
  else fallback

/-- `StandardBackend.getChunk`: absent without the plugin, and on any plugin
failure. -/
def standardGetChunk (pluginAvailable : Bool) (tr : FetchOutcome (Option ChunkEntry)) :
    Option ChunkEntry :=
  if pluginAvailable then
    match tr with
    | .responded status body => if respOk status then body else none
    | .thrown => none
  else none

/-- `StandardBackend.updateChunkText`: without the plugin it fails with the
capability condition ("Chunk text editing requires the Similharity plugin")
before any network call; with it, a non-success status or a thrown fetch
propagates. -/
def standardUpdateChunkText {α : Type} (pluginAvailable : Bool) (tr : FetchOutcome α) :
    Except JsErr α :=
  if pluginAvailable then
    match tr with
    | .responded status body =>
      if respOk status then .ok body else .error (.remoteFailed status)
    | .thrown => .error .networkThrown
  else .error .capabilityUnavailable

/-- `StandardBackend.updateChunkMetadata`: same gate as updateChunkText. -/
def standardUpdateChunkMetadata {α : Type} (pluginAvailable : Bool) (tr : FetchOutcome α) :
    Except JsErr α :=
  if pluginAvailable then
    match tr with
    | .responded status body =>
      if respOk status then .ok body else .error (.remoteFailed status)
    | .thrown => .error .networkThrown
  else .error .capabilityUnavailable

/-- The `{count, source: 'native'}` bare statistics the fallback path
returns. -/
structure Stats where
  count : Nat
  source : JStr
deriving DecidableEq

/-- `StandardBackend.getStats`: plugin statistics when available and
successful (`Sum.inl`), otherwise a bare count from the native hash list
(`Sum.inr`). -/
def standardGetStats {α : Type} (pluginAvailable : Bool) (pluginTr : FetchOutcome α)
    (nativeTr : FetchOutcome (Option (List JStr))) : Except JsErr (α ⊕ Stats) :=
  let fallback : Except JsErr (α ⊕ Stats) :=
    (standardGetSavedHashes nativeTr).map (fun hashes =>
      Sum.inr { count := hashes.length, source := "native".toList })
  if pluginAvailable then
    match pluginTr with
    | .responded status body => if respOk status then .ok (Sum.inl body) else fallback
    | .thrown => fallback
  else fallback

/-- One entry of the plugin collections listing. -/
structure RawCollection where
  id : JStr
  source : JStr
  chunkCount : Option Nat := none
  backend : Option JStr := none
deriving DecidableEq

/-- One normalized discovered collection. -/
structure CollectionInfo where
  id : JStr
  source : JStr
  chunkCount : Nat
  backend : JStr
deriving DecidableEq

/-- `StandardBackend.discoverCollections`: absent (`null`) without the
plugin and on any plugin failure; no native enumeration exists. -/
def standardDiscoverCollections (pluginAvailable : Bool)
    (tr : FetchOutcome (Option (List RawCollection))) : Option (List CollectionInfo) :=
  if pluginAvailable then
    match tr with
    | .responded status body =>
      if respOk status then
        some ((body.getD []).map (fun c =>
          { id := c.id, source := c.source, chunkCount := c.chunkCount.getD 0,
            backend := c.backend.getD "vectra".toList }))
      else none
    | .thrown => none
  else none

/-- C7: with the extension probe failed (pluginAvailable = false) every
extended operation degrades deterministically: listChunks wraps the native
hash list with empty text and metadata and a total equal to the hash count,
getChunk returns absent, updateChunkText and updateChunkMetadata fail with
the capability condition, getStats falls back to a bare count, and
discoverCollections returns absent. -/
theorem c7_native_only_degradation :
    (∀ pluginTr nativeTr hs, standardGetSavedHashes nativeTr = .ok hs →
      standardListChunks false pluginTr nativeTr
        = .ok { items := hs.map (fun h => { hash := h, text := [], metadata := [] }),
                total := hs.length }) ∧
    (∀ tr, standardGetChunk false tr = none) ∧
    (∀ tr : FetchOutcome Unit, standardUpdateChunkText false tr
      = .error .capabilityUnavailable) ∧
    (∀ tr : FetchOutcome Unit, standardUpdateChunkMetadata false tr
      = .error .capabilityUnavailable) ∧
    (∀ (pluginTr : FetchOutcome Unit) nativeTr hs,
      standardGetSavedHashes nativeTr = .ok hs →
      standardGetStats false pluginTr nativeTr
        = .ok (Sum.inr { count := hs.length, source := "native".toList })) ∧
    (∀ tr, standardDiscoverCollections false tr = none) := by
  refine ⟨?_, fun _ => rfl, fun _ => rfl, fun _ => rfl, ?_, fun _ => rfl⟩
  · intro pluginTr nativeTr hs h
    simp [standardListChunks, h, Except.map]
  · intro pluginTr nativeTr hs h
    simp [standardGetStats, h, Except.map]

/-- C7 witness: the degradations evaluated with a native hash list of one
element. -/
theorem c7_native_only_degradation_witness :
    standardListChunks false .thrown (.responded 200 (some ["h1".toList]))
      = .ok { items := [{ hash := "h1".toList, text := [], metadata := [] }],
              total := 1 } ∧
    standardUpdateChunkText (α := Unit) false .thrown = .error .capabilityUnavailable ∧
    standardGetStats (α := Unit) false .thrown (.responded 200 (some ["h1".toList]))
      = .ok (Sum.inr { count := 1, source := "native".toList }) := by
  refine ⟨?_, c7_native_only_degradation.2.2.1 .thrown, ?_⟩
  · exact c7_native_only_degradation.1 .thrown _ ["h1".toList] rfl
  · exact c7_native_only_degradation.2.2.2.2.1 .thrown _ ["h1".toList] rfl

/-- One entry of the host secret store for a provider key. -/
structure Secret where
  active : Bool
  value : JStr
deriving DecidableEq

/-- The mutable host-application state `getProviderSpecificParams` reads
beside its own arguments: `extension_settings` (extras URL and key), the
textgen server URL table, the secret store, and the `oai_settings` Vertex AI
fields.  None of this state is part of the settings object the caller
passes in. -/
structure HostEnv where
  extras_apiUrl : Option JStr := none
  extras_apiKey : Option JStr := none
  ollama_serverUrl : Option JStr := none
  llamacpp_serverUrl : Option JStr := none
  vllm_serverUrl : Option JStr := none
  bananabread_secrets : Option (List Secret) := none
  vertexai_auth_mode : Option JStr := none
  vertexai_region : Option JStr := none
  vertexai_express_project_id : Option JStr := none
deriving DecidableEq

/-- The extra request fields the resolver can emit; absent fields are the
properties the JS object never receives. -/
structure ProviderParams where
  extrasUrl : Option JStr := none
  extrasKey : Option JStr := none
  input_type : Option JStr := none
  apiUrl : Option JStr := none
  keep : Option Bool := none
  apiKey : Option JStr := none
  api : Option JStr := none
  vertexai_auth_mode : Option JStr := none
  vertexai_region : Option JStr := none
  vertexai_express_project_id : Option JStr := none
deriving DecidableEq

/-- `getProviderSpecificParams` from src: the switch on `settings.source`,
with the ambient host state made an explicit argument.  The bananabread arm
models `secrets.find(s => s.active) || secrets[0]` with the falsiness check
on the looked-up store entry (an empty array is truthy and yields no active
secret). -/
def getProviderSpecificParams (env : HostEnv) (settings : Settings) (isQuery : Bool) :
    ProviderParams :=
  if settings.source = some "extras".toList then
    { extrasUrl := env.extras_apiUrl, extrasKey := env.extras_apiKey }
  else if settings.source = some "cohere".toList then
    { input_type := some (if isQuery then "search_query".toList
                          else "search_document".toList) }
  else if settings.source = some "ollama".toList then
    { apiUrl := if settings.use_alt_endpoint then settings.alt_endpoint_url
                else env.ollama_serverUrl,
      keep := some (settings.ollama_keep = some true : Bool) }
  else if settings.source = some "llamacpp".toList then
    { apiUrl := if settings.use_alt_endpoint then settings.alt_endpoint_url
                else env.llamacpp_serverUrl }
  else if settings.source = some "vllm".toList then
    { apiUrl := if settings.use_alt_endpoint then settings.alt_endpoint_url
                else env.vllm_serverUrl }
  else if settings.source = some "bananabread".toList then
    { apiUrl := if settings.use_alt_endpoint then settings.alt_endpoint_url
                else some "http://localhost:8008".toList,
      apiKey := match env.bananabread_secrets with
        | some secrets => ((secrets.find? (·.active)).or secrets.head?).map (·.value)
        | none => none }
  else if settings.source = some "palm".toList then
    { api := some "makersuite".toList }
  else if settings.source = some "vertexai".toList then
    { api := some "vertexai".toList,
      vertexai_auth_mode := env.vertexai_auth_mode,
      vertexai_region := env.vertexai_region,
      vertexai_express_project_id := env.vertexai_express_project_id }
  else {}

/-- The provider identifiers whose resolver arm reads ambient host state. -/
def ambientReadingSources : List JStr :=
  ["extras".toList, "ollama".toList, "llamacpp".toList, "vllm".toList,
   "bananabread".toList, "vertexai".toList]

/-- C9 counterexample: two invocations with the same settings object
(source "extras") and the same flag return different parameter objects when
the ambient `extension_settings.apiUrl` differs between them: the resolver
is not a function of settings and flag alone. -/
theorem c9_env_counterexample :
    getProviderSpecificParams { extras_apiUrl := some "u1".toList }
        { source := some "extras".toList } true
      ≠ getProviderSpecificParams { extras_apiUrl := some "u2".toList }
        { source := some "extras".toList } true := by decide

/-- C9 (amended): the resolver mutates nothing and is deterministic in its
settings, flag and the ambient host state it reads; for every source outside
the ambient-reading set (extras, ollama, llamacpp, vllm, bananabread,
vertexai) its output is independent of the ambient state, so equal settings
and flag give equal fields; for the ambient-reading sources the output can
change when the host state changes, as the counterexample shows. -/
theorem c9_env_amended :
    ∀ (env env' : HostEnv) (settings : Settings) (isQuery : Bool),
      (∀ t ∈ ambientReadingSources, settings.source ≠ some t) →
      getProviderSpecificParams env settings isQuery
        = getProviderSpecificParams env' settings isQuery := by
  intro env env' settings isQuery h
  have h1 : settings.source ≠ some "extras".toList := h _ (by simp [ambientReadingSources])
  have h2 : settings.source ≠ some "ollama".toList := h _ (by simp [ambientReadingSources])
  have h3 : settings.source ≠ some "llamacpp".toList :=
    h _ (by simp [ambientReadingSources])
  have h4 : settings.source ≠ some "vllm".toList := h _ (by simp [ambientReadingSources])
  have h5 : settings.source ≠ some "bananabread".toList :=
    h _ (by simp [ambientReadingSources])
  have h6 : settings.source ≠ some "vertexai".toList :=
    h _ (by simp [ambientReadingSources])
  unfold getProviderSpecificParams
  rw [if_neg h1, if_neg h1]
  by_cases hc : settings.source = some "cohere".toList
  · rw [if_pos hc, if_pos hc]
  · rw [if_neg hc, if_neg hc, if_neg h2, if_neg h2, if_neg h3, if_neg h3,
      if_neg h4, if_neg h4, if_neg h5, if_neg h5]
    by_cases hp : settings.source = some "palm".toList
    · rw [if_pos hp, if_pos hp]
    · rw [if_neg hp, if_neg hp, if_neg h6, if_neg h6]

/-- C9 witness: the amended statement evaluated at two different ambient
states and a cohere source, where the outputs agree. -/
theorem c9_env_amended_witness :
    getProviderSpecificParams { extras_apiUrl := some "u1".toList }
        { source := some "cohere".toList } true
      = getProviderSpecificParams { extras_apiUrl := some "u2".toList }
        { source := some "cohere".toList } true :=
  c9_env_amended { extras_apiUrl := some "u1".toList }
    { extras_apiUrl := some "u2".toList } { source := some "cohere".toList } true
    (by decide)

end VectHare
